import Mathlib

/-!
Verification development for the CloudConnect-ReactMUI configuration manager
(`src/App.jsx`).

The app keeps a name-keyed mapping of SSH connection profiles in the browser
localStorage slot `ssh-vnc-configs-mui`, serialized with `JSON.stringify` and
read back with `JSON.parse`, and renders a fixed block of shell instructions
from the four form fields (ip, user, port, key path).

Embedding choices:

* A JavaScript object mapping profile names to profiles is modelled as an
  association list `ConfigMap` with JavaScript object semantics:
  `objGet` is property lookup, `objSet` models the spread
  `{...current, [name]: profile}` (replace in place when the key exists,
  append otherwise), `objDelete` models `delete obj[name]`.
* A profile parsed from JSON may lack fields, so `Profile` fields are
  `Option String`; `jsOr v d` models the JavaScript expression `v || d`
  for `v` a string or `undefined` (both `undefined` and `""` are falsy).
* The localStorage slot is a `Slot`: either absent (`getItem` returns
  `null`) or it stores some text.  The platform pair `JSON.stringify` /
  `JSON.parse` is not code of this repository; it is modelled abstractly by
  `StoredText`: `StoredText.good m` is the text `JSON.stringify m` (a
  nonempty string that `JSON.parse` maps back to `m`), `StoredText.bad s`
  is any text that `JSON.parse` rejects with a SyntaxError (this includes
  the empty string, which is falsy in JavaScript).
* Event handlers that can hit a `JSON.parse` failure return
  `Except JsError _`; `Except.error` models an exception propagating out of
  the handler (there is no try/catch in the source).
-/

/-- A connection profile as stored in the JSON mapping.  The app always
writes all four fields, but a parsed object may lack some, hence `Option`. -/
structure Profile where
  ip : Option String
  user : Option String
  port : Option String
  keyPath : Option String
deriving DecidableEq, Repr

/-- A JavaScript object mapping profile names to profiles, as an association
list in property order. -/
abbrev ConfigMap := List (String × Profile)

/-- JavaScript property lookup `m[k]` (first matching key, `undefined` when
absent). -/
def objGet : ConfigMap → String → Option Profile
  | [], _ => none
  | (k, v) :: rest, n => if k = n then some v else objGet rest n

/-- The spread `{...m, [n]: p}`: replace the value of `n` in place when the
key exists, append the new property otherwise. -/
def objSet : ConfigMap → String → Profile → ConfigMap
  | [], n, p => [(n, p)]
  | (k, v) :: rest, n, p =>
    if k = n then (n, p) :: rest else (k, v) :: objSet rest n p

/-- The statement `delete m[n]`: remove the property named `n`. -/
def objDelete : ConfigMap → String → ConfigMap
  | [], _ => []
  | (k, v) :: rest, n =>
    if k = n then objDelete rest n else (k, v) :: objDelete rest n

/-- Keys of the mapping, in property order. -/
def objKeys (m : ConfigMap) : List String := m.map Prod.fst

/-- Text stored in the localStorage slot, as seen through `JSON.parse`:
`good m` is `JSON.stringify m` (nonempty, parses back to `m`); `bad s` is
any other text, which `JSON.parse` rejects. -/
inductive StoredText
  | good (m : ConfigMap)
  | bad (s : String)
deriving DecidableEq

/-- The localStorage slot `ssh-vnc-configs-mui`: `getItem` returns `null`
(`absent`) or the stored text. -/
inductive Slot
  | absent
  | stored (t : StoredText)
deriving DecidableEq

/-- Error thrown by `JSON.parse` on text that is not valid JSON. -/
inductive JsError
  | jsonSyntaxError
deriving DecidableEq

/-- JavaScript truthiness of the stored text (`JSON.stringify` of an object
is always a nonempty string; the empty string is falsy). -/
def isTruthyText : StoredText → Bool
  | StoredText.good _ => true
  | StoredText.bad s => s != ""

/-- Model of `JSON.parse` applied to the stored text. -/
def jsonParseConfigs : StoredText → Except JsError ConfigMap
  | StoredText.good m => Except.ok m
  | StoredText.bad _ => Except.error JsError.jsonSyntaxError

/-- Function `loadConfigsFromStorage` from `App.jsx`:
`const saved = localStorage.getItem(KEY); const parsed = saved ? JSON.parse(saved) : {};`.
A parse failure propagates (there is no try/catch). -/
def loadConfigsFromStorage : Slot → Except JsError ConfigMap
  | Slot.absent => Except.ok []
  | Slot.stored t =>
    if isTruthyText t then jsonParseConfigs t else Except.ok []

/-- The initial-load effect in `App`:
`const savedConfigs = localStorage.getItem(KEY); if (savedConfigs) setConfigs(JSON.parse(savedConfigs));`.
Returns the resulting `configs` state (initially `{}`). -/
def initialLoadEffect : Slot → Except JsError ConfigMap
  | Slot.absent => Except.ok []
  | Slot.stored t =>
    if isTruthyText t then jsonParseConfigs t else Except.ok []

/-- The React form state of `App` that the storage handlers read and write. -/
structure FormState where
  configName : String
  pixelIp : String
  pixelUser : String
  sshPort : String
  selectedKey : String
  selectedConfig : String
deriving DecidableEq, Repr

/-- The profile object built by `handleSaveConfig`:
`{ ip: pixelIp, user: pixelUser, port: sshPort, keyPath: selectedKey }`. -/
def profileOf (st : FormState) : Profile :=
  { ip := some st.pixelIp, user := some st.pixelUser,
    port := some st.sshPort, keyPath := some st.selectedKey }

/-- Handler `handleSaveConfig` from `App.jsx`: refuse when the name is empty, else
read-modify-write the whole slot.  Returns the slot after the handler. -/
def handleSaveConfig (st : FormState) (slot : Slot) : Except JsError Slot :=
  if st.configName = "" then Except.ok slot
  else
    match loadConfigsFromStorage slot with
    | Except.error e => Except.error e
    | Except.ok currentConfigs =>
      Except.ok (Slot.stored (StoredText.good
        (objSet currentConfigs st.configName (profileOf st))))

/-- Handler `handleDeleteConfig` from `App.jsx`: a guard requires a selected name and
an interactive confirmation (`confirmed`), then the whole slot is rewritten
without the selected key.  Returns the slot after the handler. -/
def handleDeleteConfig (st : FormState) (confirmed : Bool) (slot : Slot) :
    Except JsError Slot :=
  if st.selectedConfig = "" ∨ confirmed = false then Except.ok slot
  else
    match loadConfigsFromStorage slot with
    | Except.error e => Except.error e
    | Except.ok currentConfigs =>
      Except.ok (Slot.stored (StoredText.good
        (objDelete currentConfigs st.selectedConfig)))

/-- The JavaScript expression `v || d` for `v` an optional string
(`undefined` and `""` are falsy). -/
def jsOr : Option String → String → String
  | none, d => d
  | some s, d => if s = "" then d else s

/-- Handler `handleLoadConfig` from `App.jsx`: look the selected name up in the
freshly loaded mapping and, when found, overwrite the form fields
(`data.port` falls back to the string 22, the others to the empty string).
Returns the form
state after the handler. -/
def handleLoadConfig (st : FormState) (slot : Slot) : Except JsError FormState :=
  if st.selectedConfig = "" then Except.ok st
  else
    match loadConfigsFromStorage slot with
    | Except.error e => Except.error e
    | Except.ok configs =>
      match objGet configs st.selectedConfig with
      | none => Except.ok st
      | some data =>
        Except.ok { st with
          configName := st.selectedConfig,
          pixelIp := jsOr data.ip "",
          pixelUser := jsOr data.user "",
          sshPort := jsOr data.port "22",
          selectedKey := jsOr data.keyPath "" }

/-- The three text blocks produced by `handleGenerateInstructions`. -/
structure Instructions where
  publicKeyPath : String
  debianCommands : String
  removeHostKeyCommand : String
deriving DecidableEq, Repr

/-- All generated text, blocks joined in display order. -/
def Instructions.allText (i : Instructions) : String :=
  i.publicKeyPath ++ "\n" ++ i.debianCommands ++ "\n" ++ i.removeHostKeyCommand

/-- Handler `handleGenerateInstructions` from `App.jsx`: silently do nothing when any
of the four fields is empty, else build the three fixed text blocks. -/
def handleGenerateInstructions (pixelIp pixelUser sshPort selectedKey : String) :
    Option Instructions :=
  if pixelIp = "" ∨ pixelUser = "" ∨ sshPort = "" ∨ selectedKey = "" then none
  else some
    { publicKeyPath := "cat " ++ selectedKey ++ ".pub",
      debianCommands := String.intercalate "\n"
        [ "# 1. Install & Enable SSH",
          "sudo apt update && sudo apt install -y openssh-server",
          "sudo systemctl enable ssh --now",
          "\n# 2. Add Your Public Key",
          "echo \x27PASTE_PUBLIC_KEY_HERE\x27 >> ~/.ssh/authorized_keys",
          "\n# 3. Set Permissions",
          "chmod 700 ~/.ssh && chmod 600 ~/.ssh/authorized_keys" ],
      removeHostKeyCommand := "ssh-keygen -R " ++ pixelIp }

/-- Boolean test that the first list of characters starts with the second. -/
def charsStartWith : List Char → List Char → Bool
  | _, [] => true
  | [], _ :: _ => false
  | c :: cs, p :: ps => c = p && charsStartWith cs ps

/-- Boolean substring test on character lists. -/
def charsContain : List Char → List Char → Bool
  | [], pat => charsStartWith [] pat
  | s@(_ :: cs), pat => charsStartWith s pat || charsContain cs pat

/-- Boolean substring test on strings. -/
def strContains (s pat : String) : Bool := charsContain s.data pat.data

/-- Code points JavaScript `String.prototype.trim` removes: WhiteSpace and
LineTerminator per ECMA-262. -/
def jsWhitespaceCodes : List Nat :=
  [9, 10, 11, 12, 13, 32, 160, 5760, 8192, 8193, 8194, 8195, 8196, 8197,
   8198, 8199, 8200, 8201, 8202, 8232, 8233, 8239, 8287, 12288, 65279]

/-- Whether a character is JavaScript whitespace. -/
def jsIsWhitespace (c : Char) : Bool := jsWhitespaceCodes.contains c.toNat

/-- JavaScript `String.prototype.trim`: drop whitespace from both ends. -/
def jsTrim (s : String) : String :=
  String.mk (((s.data.dropWhile jsIsWhitespace).reverse.dropWhile jsIsWhitespace).reverse)

/-- JavaScript `str.split('\n')` on the character list, with an accumulator
for the current segment (in reverse). -/
def splitNlAux : List Char → List Char → List String
  | acc, [] => [String.mk acc.reverse]
  | acc, c :: cs =>
    if c = '\n' then String.mk acc.reverse :: splitNlAux [] cs
    else splitNlAux (c :: acc) cs

/-- JavaScript `str.split('\n')`. -/
def jsSplitNewline (s : String) : List String := splitNlAux [] s.data

/-- The `availableKeys` effect in `App`:
`const paths = sshKeyPaths.trim().split('\n').filter(p => p.length > 0);`. -/
def availableKeysOf (sshKeyPaths : String) : List String :=
  (jsSplitNewline (jsTrim sshKeyPaths)).filter (fun p => p.length > 0)

/-- Modelled from the spec sentence for the derived key list: the
newline-separated lines of the trimmed input with all empty lines removed,
phrased with the library splitter `List.splitOn`. -/
def specAvailableKeys (s : String) : List String :=
  (((jsTrim s).data.splitOn (Char.ofNat 10)).map String.mk).filter (fun p => p != "")

/-- All keys of the stored mapping are nonempty names. -/
def KeysNonEmpty (m : ConfigMap) : Prop := ∀ e ∈ m, e.1 ≠ ""

/-- The mapping held by a well-formed stored slot, if any. -/
def slotMap? : Slot → Option ConfigMap
  | Slot.stored (StoredText.good m) => some m
  | _ => none

/-- The key invariant on the persistent slot: whenever the slot holds a
well-formed mapping, all its keys are nonempty. -/
def SlotInv (s : Slot) : Prop := ∀ m, slotMap? s = some m → KeysNonEmpty m

/-! ### Lemmas on the JavaScript object model -/

theorem objGet_objSet_self (m : ConfigMap) (n : String) (p : Profile) :
    objGet (objSet m n p) n = some p := by
  induction m with
  | nil => simp [objSet, objGet]
  | cons e rest ih =>
    obtain ⟨k, v⟩ := e
    by_cases hk : k = n
    · simp [objSet, objGet, hk]
    · simp [objSet, objGet, hk, ih]

theorem objGet_objSet_ne (m : ConfigMap) (n : String) (p : Profile) (k : String)
    (hne : k ≠ n) : objGet (objSet m n p) k = objGet m k := by
  have hne' : ¬ n = k := fun h => hne h.symm
  induction m with
  | nil => simp [objSet, objGet, hne']
  | cons e rest ih =>
    obtain ⟨k', v'⟩ := e
    by_cases hk : k' = n
    · subst hk
      simp [objSet, objGet, hne']
    · by_cases hk2 : k' = k
      · subst hk2
        simp [objSet, objGet, hk]
      · simp [objSet, objGet, hk, hk2, ih]

theorem objKeys_objSet_of_mem (m : ConfigMap) (n : String) (p : Profile)
    (hmem : n ∈ objKeys m) : objKeys (objSet m n p) = objKeys m := by
  induction m with
  | nil => simp [objKeys] at hmem
  | cons e rest ih =>
    obtain ⟨k, v⟩ := e
    by_cases hk : k = n
    · simp [objSet, objKeys, hk]
    · have hmem' : n ∈ objKeys rest := by
        simp [objKeys] at hmem
        rcases hmem with h | h
        · exact absurd h.symm hk
        · simpa [objKeys] using h
      simp [objSet, objKeys, hk]
      simpa [objKeys] using ih hmem'

theorem objGet_objDelete_self (m : ConfigMap) (n : String) :
    objGet (objDelete m n) n = none := by
  induction m with
  | nil => simp [objDelete, objGet]
  | cons e rest ih =>
    obtain ⟨k, v⟩ := e
    by_cases hk : k = n
    · simp [objDelete, hk, ih]
    · simp [objDelete, objGet, hk, ih]

theorem objGet_objDelete_ne (m : ConfigMap) (n : String) (k : String)
    (hne : k ≠ n) : objGet (objDelete m n) k = objGet m k := by
  have hne' : ¬ n = k := fun h => hne h.symm
  induction m with
  | nil => simp [objDelete]
  | cons e rest ih =>
    obtain ⟨k', v'⟩ := e
    by_cases hk : k' = n
    · subst hk
      simp [objDelete, objGet, hne', ih]
    · simp [objDelete, objGet, hk, ih]

theorem objDelete_of_not_mem (m : ConfigMap) (n : String)
    (habs : n ∉ objKeys m) : objDelete m n = m := by
  induction m with
  | nil => simp [objDelete]
  | cons e rest ih =>
    obtain ⟨k, v⟩ := e
    have hcons : objKeys ((k, v) :: rest) = k :: objKeys rest := rfl
    rw [hcons, List.mem_cons] at habs
    push_neg at habs
    obtain ⟨h1, h2⟩ := habs
    have hkn : ¬ k = n := fun h => h1 h.symm
    simp only [objDelete, if_neg hkn]
    rw [ih h2]

theorem keysNonEmpty_objSet (m : ConfigMap) (n : String) (p : Profile)
    (hm : KeysNonEmpty m) (hn : n ≠ "") : KeysNonEmpty (objSet m n p) := by
  induction m with
  | nil =>
    intro e he
    simp [objSet] at he
    simp [he, hn]
  | cons f rest ih =>
    obtain ⟨k, v⟩ := f
    have hk : k ≠ "" := hm (k, v) (by simp)
    have hrest : KeysNonEmpty rest := fun e he => hm e (by simp [he])
    by_cases hkn : k = n
    · intro e he
      simp [objSet, hkn] at he
      rcases he with he | he
      · simp [he, hn]
      · exact hrest e he
    · intro e he
      simp [objSet, hkn] at he
      rcases he with he | he
      · simp [he, hk]
      · exact ih hrest e he

theorem keysNonEmpty_objDelete (m : ConfigMap) (n : String)
    (hm : KeysNonEmpty m) : KeysNonEmpty (objDelete m n) := by
  induction m with
  | nil => intro e he; simp [objDelete] at he
  | cons f rest ih =>
    obtain ⟨k, v⟩ := f
    have hrest : KeysNonEmpty rest := fun e he => hm e (by simp [he])
    by_cases hkn : k = n
    · simpa [objDelete, hkn] using ih hrest
    · intro e he
      simp [objDelete, hkn] at he
      rcases he with he | he
      · exact hm e (by simp [he])
      · exact ih hrest e he

/-! ### Lemmas on splitting and trimming -/

/-- The separator used by `specAvailableKeys` is the newline character. -/
theorem specSep_eq_newline : Char.ofNat 10 = '\n' := by decide

theorem splitOn_newline_ne_nil (l : List Char) : l.splitOn '\n' ≠ [] := by
  simp only [List.splitOn]
  exact List.splitOnP_ne_nil _ l

theorem splitNlAux_splitOn (l : List Char) :
    ∀ acc : List Char,
      splitNlAux acc l =
        String.mk (acc.reverse ++ (l.splitOn '\n').headI) ::
          (l.splitOn '\n').tail.map String.mk := by
  induction l with
  | nil => intro acc; simp [splitNlAux, List.splitOn]
  | cons c cs ih =>
    intro acc
    obtain ⟨h, t, hht⟩ : ∃ h t, cs.splitOn '\n' = h :: t := by
      cases hcs : cs.splitOn '\n' with
      | nil => exact absurd hcs (splitOn_newline_ne_nil cs)
      | cons h t => exact ⟨h, t, rfl⟩
    have hht' : cs.splitOnP (fun x => x == '\n') = h :: t := by
      simpa [List.splitOn] using hht
    by_cases hc : c = '\n'
    · subst hc
      simp [splitNlAux, List.splitOn, List.splitOnP_cons, hht', ih, hht]
    · simp [splitNlAux, List.splitOn, List.splitOnP_cons, hc, hht', ih, hht,
        List.append_assoc]

theorem jsSplitNewline_eq_splitOn (s : String) :
    jsSplitNewline s = (s.data.splitOn '\n').map String.mk := by
  obtain ⟨h, t, hht⟩ : ∃ h t, s.data.splitOn '\n' = h :: t := by
    cases hcs : s.data.splitOn '\n' with
    | nil => exact absurd hcs (splitOn_newline_ne_nil s.data)
    | cons h t => exact ⟨h, t, rfl⟩
  rw [jsSplitNewline, splitNlAux_splitOn s.data [], hht]
  simp

theorem strLength_pos_beq (p : String) : (decide (p.length > 0)) = (p != "") := by
  by_cases hp : p = ""
  · subst hp; decide
  · have hlen : 0 < p.length := by
      cases p with
      | mk l =>
        cases l with
        | nil => exact absurd rfl hp
        | cons c cs => simp [String.length]
    simp [hlen, bne, hp]

theorem jsOr_some_self (x : String) : jsOr (some x) "" = x := by
  by_cases h : x = ""
  · simp [jsOr, h]
  · simp [jsOr, h]

/-! ### Lemmas on the storage invariant -/

theorem loadConfigs_keysNonEmpty (slot : Slot) (m : ConfigMap)
    (hinv : SlotInv slot) (hload : loadConfigsFromStorage slot = Except.ok m) :
    KeysNonEmpty m := by
  cases slot with
  | absent =>
    simp [loadConfigsFromStorage] at hload
    subst hload
    intro e he
    simp at he
  | stored t =>
    cases t with
    | good mm =>
      simp [loadConfigsFromStorage, isTruthyText, jsonParseConfigs] at hload
      subst hload
      exact hinv mm rfl
    | bad s =>
      by_cases hs : s = ""
      · subst hs
        simp [loadConfigsFromStorage, isTruthyText] at hload
        subst hload
        intro e he
        simp at he
      · simp [loadConfigsFromStorage, isTruthyText, jsonParseConfigs, bne, hs] at hload

theorem handleSave_slotInv (st : FormState) (slot slot' : Slot)
    (hinv : SlotInv slot) (hrun : handleSaveConfig st slot = Except.ok slot') :
    SlotInv slot' := by
  by_cases hn : st.configName = ""
  · simp [handleSaveConfig, hn] at hrun
    subst hrun
    exact hinv
  · cases hl : loadConfigsFromStorage slot with
    | error e => simp [handleSaveConfig, hn, hl] at hrun
    | ok current =>
      have hc : KeysNonEmpty current := loadConfigs_keysNonEmpty slot current hinv hl
      simp [handleSaveConfig, hn, hl] at hrun
      subst hrun
      intro mm hmm
      simp [slotMap?] at hmm
      subst hmm
      exact keysNonEmpty_objSet _ _ _ hc hn

theorem handleDelete_slotInv (st : FormState) (confirmed : Bool) (slot slot' : Slot)
    (hinv : SlotInv slot) (hrun : handleDeleteConfig st confirmed slot = Except.ok slot') :
    SlotInv slot' := by
  by_cases hg : st.selectedConfig = "" ∨ confirmed = false
  · simp only [handleDeleteConfig, if_pos hg] at hrun
    cases hrun
    exact hinv
  · cases hl : loadConfigsFromStorage slot with
    | error e =>
      simp only [handleDeleteConfig, if_neg hg, hl] at hrun
      exact Except.noConfusion hrun
    | ok current =>
      have hc : KeysNonEmpty current := loadConfigs_keysNonEmpty slot current hinv hl
      simp only [handleDeleteConfig, if_neg hg, hl] at hrun
      cases hrun
      intro mm hmm
      simp [slotMap?] at hmm
      subst hmm
      exact keysNonEmpty_objDelete _ _ hc

/-! ### Claim theorems -/

/-- C1 counterexample: the stored text `{` is not parsable as JSON, and the
load operation propagates the `JSON.parse` SyntaxError instead of returning
an empty mapping (there is no try/catch in `loadConfigsFromStorage`). -/
theorem c1_counterexample :
    loadConfigsFromStorage (Slot.stored (StoredText.bad "\x7b")) =
      Except.error JsError.jsonSyntaxError ∧
    loadConfigsFromStorage (Slot.stored (StoredText.bad "\x7b")) ≠
      Except.ok [] := by
  constructor
  · rfl
  · intro h
    exact Except.noConfusion h

/-- C1 (amended): the load operation returns an empty mapping when the slot
is absent or when the stored value is the empty string (which is falsy, so
`JSON.parse` is never reached); for every other stored value that is not
parsable as JSON, the `JSON.parse` error propagates out of the load
operation instead of yielding an empty mapping.  The same holds for the
initial load effect. -/
theorem c1_load_unparsable_amended :
    (loadConfigsFromStorage (Slot.stored (StoredText.bad "")) = Except.ok [] ∧
     initialLoadEffect (Slot.stored (StoredText.bad "")) = Except.ok []) ∧
    (∀ s : String, s ≠ "" →
      loadConfigsFromStorage (Slot.stored (StoredText.bad s)) =
        Except.error JsError.jsonSyntaxError ∧
      initialLoadEffect (Slot.stored (StoredText.bad s)) =
        Except.error JsError.jsonSyntaxError) := by
  refine ⟨⟨rfl, rfl⟩, fun s hs => ⟨?_, ?_⟩⟩
  · simp [loadConfigsFromStorage, isTruthyText, jsonParseConfigs, bne, hs]
  · simp [initialLoadEffect, isTruthyText, jsonParseConfigs, bne, hs]

/-- C1 witness: the amended claim at the concrete unparsable text `oops`. -/
theorem c1_witness :
    loadConfigsFromStorage (Slot.stored (StoredText.bad "oops")) =
      Except.error JsError.jsonSyntaxError :=
  (c1_load_unparsable_amended.2 "oops" (by decide)).1

/-- C2 counterexample: saving the profile (ip=`1.2.3.4`, user=`u`, port
empty, keyPath=`/k`) under the name `pixel` and then loading `pixel` yields
port `22`, not the empty port that was saved. -/
theorem c2_counterexample :
    (handleSaveConfig ⟨"pixel", "1.2.3.4", "u", "", "/k", "pixel"⟩ Slot.absent).bind
        (fun slot => handleLoadConfig ⟨"pixel", "1.2.3.4", "u", "", "/k", "pixel"⟩ slot) =
      Except.ok ⟨"pixel", "1.2.3.4", "u", "22", "/k", "pixel"⟩ ∧
    ("22" : String) ≠ "" := by
  constructor
  · rfl
  · intro h
    exact absurd h (by decide)

/-- C2 (amended): saving a profile under a non-empty name N and then loading
N yields exactly the saved ip, user and keyPath; the port round-trips
exactly when it is non-empty, and comes back as `22` when the saved port is
the empty string. -/
theorem c2_roundtrip_amended (st : FormState) (slot : Slot) (m : ConfigMap)
    (hname : st.configName ≠ "")
    (hsel : st.selectedConfig = st.configName)
    (hload : loadConfigsFromStorage slot = Except.ok m) :
    handleSaveConfig st slot =
      Except.ok (Slot.stored (StoredText.good (objSet m st.configName (profileOf st)))) ∧
    handleLoadConfig st (Slot.stored (StoredText.good (objSet m st.configName (profileOf st)))) =
      Except.ok ⟨st.configName, st.pixelIp, st.pixelUser,
        if st.sshPort = "" then "22" else st.sshPort,
        st.selectedKey, st.selectedConfig⟩ := by
  have hsel' : st.selectedConfig ≠ "" := by rw [hsel]; exact hname
  constructor
  · simp [handleSaveConfig, hname, hload]
  · simp only [handleLoadConfig, hsel, if_neg hname, loadConfigsFromStorage,
      isTruthyText, if_true, jsonParseConfigs, objGet_objSet_self]
    simp only [profileOf, jsOr_some_self]
    rfl

/-- C2 witness: the amended round-trip at a concrete profile with an empty
saved port. -/
theorem c2_witness :
    handleSaveConfig ⟨"n", "i", "u", "", "k", "n"⟩ Slot.absent =
      Except.ok (Slot.stored (StoredText.good
        (objSet [] "n" (profileOf ⟨"n", "i", "u", "", "k", "n"⟩)))) ∧
    handleLoadConfig ⟨"n", "i", "u", "", "k", "n"⟩
        (Slot.stored (StoredText.good
          (objSet [] "n" (profileOf ⟨"n", "i", "u", "", "k", "n"⟩)))) =
      Except.ok ⟨"n", "i", "u",
        if ("" : String) = "" then "22" else "", "k", "n"⟩ :=
  c2_roundtrip_amended ⟨"n", "i", "u", "", "k", "n"⟩ Slot.absent []
    (by decide) rfl rfl

set_option maxRecDepth 100000 in
/-- C5: for ip=`10.0.0.5`, user=`pat`, port=`22`,
keyPath=`/home/pat/.ssh/id_ed25519`, the generated text contains the
literal substrings `cat /home/pat/.ssh/id_ed25519.pub` and
`ssh-keygen -R 10.0.0.5`. -/
theorem c5_generator_substrings :
    (handleGenerateInstructions "10.0.0.5" "pat" "22" "/home/pat/.ssh/id_ed25519").map
      (fun i => (strContains i.allText "cat /home/pat/.ssh/id_ed25519.pub",
                 strContains i.allText "ssh-keygen -R 10.0.0.5")) =
    some (true, true) := by decide

/-- C6: the instructions generator produces no output (and no error) when
any of the four fields is the empty string. -/
theorem c6_generator_requires_fields (pixelIp pixelUser sshPort selectedKey : String)
    (h : pixelIp = "" ∨ pixelUser = "" ∨ sshPort = "" ∨ selectedKey = "") :
    handleGenerateInstructions pixelIp pixelUser sshPort selectedKey = none := by
  unfold handleGenerateInstructions
  rw [if_pos h]

/-- C6 witness: the generator is a no-op at a concrete state with an empty
ip field. -/
theorem c6_witness :
    handleGenerateInstructions "" "pat" "22" "/home/pat/.ssh/id_ed25519" = none :=
  c6_generator_requires_fields "" "pat" "22" "/home/pat/.ssh/id_ed25519" (Or.inl rfl)

/-- C7: when the slot is absent, both the load operation and the initial
load effect return the empty mapping, without an error. -/
theorem c7_load_absent :
    loadConfigsFromStorage Slot.absent = Except.ok [] ∧
    initialLoadEffect Slot.absent = Except.ok [] := ⟨rfl, rfl⟩

/-- C3: saving under a non-empty name N already present in the mapping
rewrites the slot with exactly the entry for N replaced: N maps to the
saved profile, every other name is unchanged, and the key set is
unchanged. -/
theorem c3_save_frame (st : FormState) (slot : Slot) (m : ConfigMap)
    (hname : st.configName ≠ "")
    (hmem : st.configName ∈ objKeys m)
    (hload : loadConfigsFromStorage slot = Except.ok m) :
    handleSaveConfig st slot =
      Except.ok (Slot.stored (StoredText.good (objSet m st.configName (profileOf st)))) ∧
    objGet (objSet m st.configName (profileOf st)) st.configName = some (profileOf st) ∧
    (∀ k, k ≠ st.configName → objGet (objSet m st.configName (profileOf st)) k = objGet m k) ∧
    objKeys (objSet m st.configName (profileOf st)) = objKeys m := by
  refine ⟨?_, objGet_objSet_self _ _ _, fun k hk => objGet_objSet_ne _ _ _ _ hk,
    objKeys_objSet_of_mem _ _ _ hmem⟩
  simp [handleSaveConfig, hname, hload]

/-- C3 witness: the frame condition at a concrete mapping, overwriting the
existing name `a` and checking the lookup of the unrelated name `b`. -/
theorem c3_witness :
    objGet (objSet [("a", Profile.mk none none none none)] "a"
      (profileOf ⟨"a", "i", "u", "22", "k", ""⟩)) "b" =
    objGet [("a", Profile.mk none none none none)] "b" :=
  (c3_save_frame ⟨"a", "i", "u", "22", "k", ""⟩
    (Slot.stored (StoredText.good [("a", Profile.mk none none none none)]))
    [("a", Profile.mk none none none none)]
    (by decide) (by decide) rfl).2.2.1 "b" (by decide)

/-- C4: deleting a selected non-empty name (after confirmation) rewrites the
slot with exactly that entry removed: the name no longer resolves, every
other name is unchanged, and deleting an absent name leaves the mapping
equal to the original. -/
theorem c4_delete_exact (st : FormState) (slot : Slot) (m : ConfigMap)
    (hsel : st.selectedConfig ≠ "")
    (hload : loadConfigsFromStorage slot = Except.ok m) :
    handleDeleteConfig st true slot =
      Except.ok (Slot.stored (StoredText.good (objDelete m st.selectedConfig))) ∧
    objGet (objDelete m st.selectedConfig) st.selectedConfig = none ∧
    (∀ k, k ≠ st.selectedConfig → objGet (objDelete m st.selectedConfig) k = objGet m k) ∧
    (st.selectedConfig ∉ objKeys m → objDelete m st.selectedConfig = m) := by
  have hg : ¬(st.selectedConfig = "" ∨ (true : Bool) = false) := by
    intro h
    rcases h with h | h
    · exact hsel h
    · exact Bool.noConfusion h
  refine ⟨?_, objGet_objDelete_self _ _, fun k hk => objGet_objDelete_ne _ _ _ hk,
    fun habs => objDelete_of_not_mem _ _ habs⟩
  simp only [handleDeleteConfig]
  rw [if_neg hg, hload]

/-- C4 witness: deleting the absent name `b` from a concrete mapping is a
no-op. -/
theorem c4_witness :
    objDelete [("a", Profile.mk none none none none)] "b" =
      [("a", Profile.mk none none none none)] :=
  (c4_delete_exact ⟨"", "", "", "", "", "b"⟩
    (Slot.stored (StoredText.good [("a", Profile.mk none none none none)]))
    [("a", Profile.mk none none none none)]
    (by decide) rfl).2.2.2 (by decide)

/-- C8: nonempty keys are an invariant of the store: save refuses to run on
an empty name, save and delete preserve the invariant on the slot, and load
returns only mappings whose keys are all nonempty. -/
theorem c8_key_invariant :
    (∀ (st : FormState) (slot : Slot), st.configName = "" →
      handleSaveConfig st slot = Except.ok slot) ∧
    (∀ (st : FormState) (slot slot' : Slot), SlotInv slot →
      handleSaveConfig st slot = Except.ok slot' → SlotInv slot') ∧
    (∀ (st : FormState) (confirmed : Bool) (slot slot' : Slot), SlotInv slot →
      handleDeleteConfig st confirmed slot = Except.ok slot' → SlotInv slot') ∧
    (∀ (slot : Slot) (m : ConfigMap), SlotInv slot →
      loadConfigsFromStorage slot = Except.ok m → KeysNonEmpty m) :=
  ⟨fun st slot h => by simp [handleSaveConfig, h],
    fun st slot slot' hinv hrun => handleSave_slotInv st slot slot' hinv hrun,
    fun st c slot slot' hinv hrun => handleDelete_slotInv st c slot slot' hinv hrun,
    fun slot m hinv hload => loadConfigs_keysNonEmpty slot m hinv hload⟩

/-- C8 witness: save with an empty configuration name leaves the absent
slot untouched. -/
theorem c8_witness :
    handleSaveConfig ⟨"", "i", "u", "22", "k", ""⟩ Slot.absent = Except.ok Slot.absent :=
  c8_key_invariant.1 ⟨"", "i", "u", "22", "k", ""⟩ Slot.absent rfl

/-- C9: when the stored profile's port is absent or empty, loading sets the
form's port to `22`; ip, user and keyPath default to the empty string in
the same situation. -/
theorem c9_load_defaults (st : FormState) (slot : Slot) (m : ConfigMap)
    (p : Profile) (st' : FormState)
    (hsel : st.selectedConfig ≠ "")
    (hload : loadConfigsFromStorage slot = Except.ok m)
    (hget : objGet m st.selectedConfig = some p)
    (hrun : handleLoadConfig st slot = Except.ok st') :
    ((p.port = none ∨ p.port = some "") → st'.sshPort = "22") ∧
    ((p.ip = none ∨ p.ip = some "") → st'.pixelIp = "") ∧
    ((p.user = none ∨ p.user = some "") → st'.pixelUser = "") ∧
    ((p.keyPath = none ∨ p.keyPath = some "") → st'.selectedKey = "") := by
  simp only [handleLoadConfig, if_neg hsel, hload, hget, Except.ok.injEq] at hrun
  subst hrun
  refine ⟨?_, ?_, ?_, ?_⟩ <;> rintro (h | h) <;> simp [jsOr, h]

/-- C9 witness: loading a concrete profile with all fields absent yields
port `22`. -/
theorem c9_witness :
    objGet [("a", Profile.mk none none none none)] "a" =
      some (Profile.mk none none none none) ∧
    (⟨"a", "", "", "22", "", "a"⟩ : FormState).sshPort = "22" :=
  ⟨rfl,
    (c9_load_defaults ⟨"", "", "", "", "", "a"⟩
      (Slot.stored (StoredText.good [("a", Profile.mk none none none none)]))
      [("a", Profile.mk none none none none)] (Profile.mk none none none none)
      ⟨"a", "", "", "22", "", "a"⟩
      (by decide) rfl rfl rfl).1 (Or.inl rfl)⟩

/-- C10: the derived key list equals the newline-separated lines of the
trimmed input with all empty lines removed, and an input consisting solely
of whitespace yields the empty list. -/
theorem c10_available_keys (s : String) :
    availableKeysOf s = specAvailableKeys s ∧
    ((∀ c ∈ s.data, jsIsWhitespace c = true) → availableKeysOf s = []) := by
  constructor
  · simp only [availableKeysOf, specAvailableKeys, specSep_eq_newline,
      jsSplitNewline_eq_splitOn]
    exact List.filter_congr (fun p hp => strLength_pos_beq p)
  · intro hws
    have h1 : s.data.dropWhile jsIsWhitespace = [] := List.dropWhile_eq_nil_iff.mpr hws
    have htrim : jsTrim s = "" := by
      rw [jsTrim, h1]
      rfl
    simp only [availableKeysOf, htrim]
    rfl

/-- C10 witness: a whitespace-only key-paths input yields no available
keys. -/
theorem c10_witness : availableKeysOf " \t " = [] :=
  (c10_available_keys " \t ").2 (by decide)
